import Mathlib

/-!
A shallow embedding of the GTFS-realtime arrivals pipeline of the RTD N Line
API proxy (src/server.js), and proofs about it.

The embedding covers the two arrivals endpoints:
- GET /api/rtd/arrivals           (all known N Line stops)
- GET /api/rtd/arrivals/:stopId   (one stop, windowed and truncated)

Each request fetches the upstream TripUpdate feed, decodes it, linearly scans
the entities, keeps trip-updates with routeId equal to the string N, projects
each kept stop-time-update to an arrival record, sorts by effective time and
responds with JSON.  Fetch and decode are external collaborators; they are
modelled by an `Except String Feed` argument: `Except.ok` is a decoded feed,
`Except.error` is a fetch or decode failure caught by the handler's catch
block.  The two calls the code makes to `Date.now()` per request are modelled
by a single millisecond clock value `nowMs`, and JavaScript's floating-point
arithmetic is idealised as exact rational arithmetic.  The locale-formatted
`arrivalTimeFormatted` string field is locale dependent and is not modelled;
no claim concerns it.
-/

namespace RtdNLine

/-- A trip descriptor as the code reads it: `trip.trip.tripId`,
`trip.trip.routeId`, `trip.trip.directionId`. -/
structure TripDescriptor where
  tripId : String
  routeId : String
  directionId : Int
  deriving DecidableEq

/-- One stop-time-update.  `arrival` and `departure` model the values the code
reads as `update.arrival?.time?.low` and `update.departure?.time?.low`:
`none` when the optional chain hits a missing message, otherwise the integer
epoch-second value. -/
structure StopTimeUpdate where
  stopId : String
  arrival : Option Int
  departure : Option Int
  deriving DecidableEq

/-- A trip-update: its descriptor, its stop-time-updates (the code reads
`trip.stopTimeUpdate || []`, so a missing list behaves as the empty list), and
the optional vehicle id read as `trip.vehicle?.id`. -/
structure TripUpdate where
  trip : TripDescriptor
  stopTimeUpdate : List StopTimeUpdate
  vehicle : Option String
  deriving DecidableEq

/-- A feed entity; only its optional trip-update is consumed by the arrivals
pipeline. -/
structure Entity where
  tripUpdate : Option TripUpdate
  deriving DecidableEq

/-- A decoded feed: the ordered entity list (`feed.entity`). -/
structure Feed where
  entity : List Entity
  deriving DecidableEq

/-- JavaScript truthiness of an optional number: `undefined` and `0` are
falsy. -/
def jsTruthy : Option Int → Bool
  | none => false
  | some t => t != 0

/-- JavaScript `a || b` for an optional string `a`: the empty string and
`undefined` are falsy. -/
def jsOrString : Option String → String → String
  | some s, b => if s = "" then b else s
  | none, b => b

/-- JavaScript `String.prototype.toLowerCase`, modelled as lowercasing each
character with `Char.toLower`.  This is ASCII case folding, an idealisation:
JavaScript lowercases the full Unicode range (for instance the Kelvin sign
lowercases to the letter k there but is unchanged here).  All directory keys
and the stop ids the claims exercise are ASCII, where the two agree. -/
def jsToLower (s : String) : String :=
  String.mk (s.data.map Char.toLower)

/-- The value the code binds as
`arrivalTime = update.arrival?.time?.low || update.departure?.time?.low`,
which it then uses only under `if (arrivalTime)`: the arrival time when it is
present and nonzero, else the departure time when it is present and nonzero,
else nothing. -/
def effectiveTime (u : StopTimeUpdate) : Option Int :=
  if jsTruthy u.arrival then u.arrival
  else if jsTruthy u.departure then u.departure
  else none

/-- Modelled from the spec: section 3 and 4.3 say the effective time is the
arrival time if present, else the departure time (with no truthiness test on
the value itself).  Stated for comparison with `effectiveTime`, which is read
off the code. -/
def specEffectiveTime (u : StopTimeUpdate) : Option Int :=
  match u.arrival with
  | some t => some t
  | none => u.departure

/-- JavaScript `Math.round`: round half toward positive infinity. -/
def jsRound (q : ℚ) : Int := ⌊q + 1 / 2⌋

/-- The exact value of `(arrivalTime - Date.now() / 1000) / 60` in minutes,
for an effective time `t` in epoch seconds and clock `nowMs` in epoch
milliseconds. -/
def minutesUntilQ (t nowMs : Int) : ℚ :=
  ((t : ℚ) - (nowMs : ℚ) / 1000) / 60

/-- The code's `Math.round((arrivalTime - Date.now() / 1000) / 60)`, written in
exact integer arithmetic so that it evaluates by kernel reduction; the theorem
`minutesUntil_eq_jsRound` proves it equal to `jsRound (minutesUntilQ t nowMs)`,
the formula as the source writes it. -/
def minutesUntil (t nowMs : Int) : Int :=
  (1000 * t - nowMs + 30000) / 60000

/-- The stop directory literal `N_LINE_STOPS` of src/server.js, as the map
from a (lowercased) stop id key to the display name of the entry. -/
def N_LINE_STOPS : String → Option String
  | "ustn" => some "Union Station"
  | "union" => some "Union Station"
  | "unionstation" => some "Union Station"
  | "48th" => some "48th & Brighton/National Western Center"
  | "48thbrighton" => some "48th & Brighton/National Western Center"
  | "72nd" => some "Commerce City/72nd"
  | "72ndcommercecity" => some "Commerce City/72nd"
  | "88th" => some "Original Thornton/88th"
  | "88ththornton" => some "Original Thornton/88th"
  | "104th" => some "Thornton Crossroads/104th"
  | "104ththornton" => some "Thornton Crossroads/104th"
  | "112th" => some "Northglenn/112th"
  | "112thnorthglenn" => some "Northglenn/112th"
  | "124th" => some "Eastlake/124th"
  | "124theastlake" => some "Eastlake/124th"
  | _ => none

/-- The accepted route-identifier set of this deployment: the code keeps
exactly the trip-updates with `trip.routeId === 'N'`. -/
def acceptedRouteIds : List String := ["N"]

/-- A value that JavaScript bracket lookup on the stop-directory object
literal can produce: one of the literal's own stop entries, a function
inherited from Object.prototype (whose name property is the function's name;
for the constructor property that function is Object), or Object.prototype
itself, reached through the inherited proto accessor, which has no name
property.  Every such value is truthy in JavaScript. -/
inductive DirectoryHit where
  | stopEntry (name : String)
  | builtinFn (name : String)
  | objectProto
  deriving DecidableEq

/-- JavaScript property lookup `N_LINE_STOPS[key]` including the prototype
chain: an own entry of the object literal when the key is one of the 15 stop
ids, else the inherited Object.prototype property when the key names one
(property names are case-sensitive), else undefined. -/
def N_LINE_STOPS_get (k : String) : Option DirectoryHit :=
  match N_LINE_STOPS k with
  | some n => some (DirectoryHit.stopEntry n)
  | none =>
    if k = "constructor" then some (DirectoryHit.builtinFn "Object")
    else if k = "hasOwnProperty" then
      some (DirectoryHit.builtinFn "hasOwnProperty")
    else if k = "isPrototypeOf" then
      some (DirectoryHit.builtinFn "isPrototypeOf")
    else if k = "propertyIsEnumerable" then
      some (DirectoryHit.builtinFn "propertyIsEnumerable")
    else if k = "toLocaleString" then
      some (DirectoryHit.builtinFn "toLocaleString")
    else if k = "toString" then some (DirectoryHit.builtinFn "toString")
    else if k = "valueOf" then some (DirectoryHit.builtinFn "valueOf")
    else if k = "__defineGetter__" then
      some (DirectoryHit.builtinFn "__defineGetter__")
    else if k = "__defineSetter__" then
      some (DirectoryHit.builtinFn "__defineSetter__")
    else if k = "__lookupGetter__" then
      some (DirectoryHit.builtinFn "__lookupGetter__")
    else if k = "__lookupSetter__" then
      some (DirectoryHit.builtinFn "__lookupSetter__")
    else if k = "__proto__" then some DirectoryHit.objectProto
    else none

/-- The optional name property of a looked-up value, as `?.name` reads it:
stop entries and built-in functions have one; Object.prototype does not. -/
def DirectoryHit.jsName : DirectoryHit → Option String
  | DirectoryHit.stopEntry n => some n
  | DirectoryHit.builtinFn n => some n
  | DirectoryHit.objectProto => none

/-- One record of the all-stops endpoint output (the object pushed onto
`nLineArrivals` in the GET /api/rtd/arrivals handler; the locale-formatted
time string is not modelled). -/
structure NLineArrival where
  stopId : String
  stopName : String
  tripId : String
  directionId : Int
  arrivalTime : Int
  minutesUntil : Int
  vehicleId : String
  deriving DecidableEq

/-- The body of the all-stops loop for one stop-time-update: look the
lowercased stop id up in the directory, take the truthy effective time, and
build the record; `none` when the update contributes nothing.  The directory
guard is modelled on the literal's own entries: a feed whose stop-time-update
carries a stop id naming an inherited Object.prototype property (such as
constructor) would also pass the JavaScript truthiness test and be pushed
with the inherited value's name; no real stop has such an id, and the
properties proved below about this projection (route provenance, effective
time, ordering, absence of window and limit) do not depend on which stop ids
the directory admits. -/
def projectAllStop (trip : TripUpdate) (nowMs : Int) (u : StopTimeUpdate) :
    Option NLineArrival :=
  (N_LINE_STOPS (jsToLower u.stopId)).bind fun name =>
    (effectiveTime u).bind fun t =>
      some { stopId := jsToLower u.stopId
             stopName := name
             tripId := trip.trip.tripId
             directionId := trip.trip.directionId
             arrivalTime := t
             minutesUntil := minutesUntil t nowMs
             vehicleId := jsOrString trip.vehicle "Unknown" }

/-- The contribution of one entity to the all-stops output:
`if (entity.tripUpdate && entity.tripUpdate.trip.routeId === 'N')`. -/
def entityNLineArrivals (nowMs : Int) (e : Entity) : List NLineArrival :=
  match e.tripUpdate with
  | none => []
  | some trip =>
    if trip.trip.routeId = "N" then
      trip.stopTimeUpdate.filterMap (projectAllStop trip nowMs)
    else []

/-- The unsorted all-stops arrival list, in feed order. -/
def nLineArrivals (f : Feed) (nowMs : Int) : List NLineArrival :=
  f.entity.flatMap (entityNLineArrivals nowMs)

/-- The sort key relation of `nLineArrivals.sort((a, b) => a.arrivalTime -
b.arrivalTime)`. -/
def NLineArrival.timeLE (a b : NLineArrival) : Prop :=
  a.arrivalTime ≤ b.arrivalTime

instance : DecidableRel NLineArrival.timeLE :=
  fun a b => inferInstanceAs (Decidable (a.arrivalTime ≤ b.arrivalTime))

instance : IsTotal NLineArrival NLineArrival.timeLE :=
  ⟨fun a b => Int.le_total a.arrivalTime b.arrivalTime⟩

instance : IsTrans NLineArrival NLineArrival.timeLE :=
  ⟨fun _ _ _ => Int.le_trans⟩

/-- The sorted all-stops arrival list.  `Array.prototype.sort` is required to
be stable, and a stable sort's output is uniquely determined by the comparator
and the input order, so it is modelled by insertion sort, which is stable. -/
def sortedNLineArrivals (f : Feed) (nowMs : Int) : List NLineArrival :=
  (nLineArrivals f nowMs).insertionSort NLineArrival.timeLE

/-- The result of the GET /api/rtd/arrivals handler: on success the JSON body
fields, on a caught error the 500 response. -/
inductive AllResult where
  | success (timestamp : Int) (arrivals : List NLineArrival)
  | failure (status : Nat) (error : String)
  deriving DecidableEq

/-- The GET /api/rtd/arrivals handler, with the fetch-and-decode stage passed
in as an `Except`. -/
def allEndpoint (fetched : Except String Feed) (nowMs : Int) : AllResult :=
  match fetched with
  | Except.ok f => AllResult.success nowMs (sortedNLineArrivals f nowMs)
  | Except.error e => AllResult.failure 500 e

/-- The key set of the JSON document each branch of the all-stops handler
sends: the success body is the object literal with keys timestamp and
arrivals; the catch block sends the object literal with keys error and
stack. -/
def AllResult.jsonKeys : AllResult → List String
  | AllResult.success _ _ => ["timestamp", "arrivals"]
  | AllResult.failure _ _ => ["error", "stack"]

/-- One record of the per-stop endpoint output (the object pushed onto
`arrivals` in the GET /api/rtd/arrivals/:stopId handler; the locale-formatted
time string is not modelled). -/
structure StopArrival where
  tripId : String
  directionId : Int
  direction : String
  arrivalTime : Int
  minutesUntil : Int
  status : String
  vehicleId : String
  deriving DecidableEq

/-- The body of the per-stop loop for one stop-time-update: compare lowercased
stop ids, take the truthy effective time, and keep the record only when
minutesUntil lies in the window from -2 to 120. -/
def projectStop (trip : TripUpdate) (stopId : String) (nowMs : Int)
    (u : StopTimeUpdate) : Option StopArrival :=
  if jsToLower u.stopId = jsToLower stopId then
    (effectiveTime u).bind fun t =>
      if -2 ≤ minutesUntil t nowMs ∧ minutesUntil t nowMs ≤ 120 then
        some { tripId := trip.trip.tripId
               directionId := trip.trip.directionId
               direction :=
                 if trip.trip.directionId = 0 then "Southbound" else "Northbound"
               arrivalTime := t
               minutesUntil := minutesUntil t nowMs
               status :=
                 if minutesUntil t nowMs ≤ 1 then "Arriving"
                 else if minutesUntil t nowMs ≤ 5 then "Due" else "On Time"
               vehicleId := jsOrString trip.vehicle "Unknown" }
      else none
  else none

/-- The contribution of one entity to the per-stop output. -/
def entityStopArrivals (stopId : String) (nowMs : Int) (e : Entity) :
    List StopArrival :=
  match e.tripUpdate with
  | none => []
  | some trip =>
    if trip.trip.routeId = "N" then
      trip.stopTimeUpdate.filterMap (projectStop trip stopId nowMs)
    else []

/-- The unsorted per-stop arrival list, in feed order. -/
def stopArrivals (f : Feed) (stopId : String) (nowMs : Int) : List StopArrival :=
  f.entity.flatMap (entityStopArrivals stopId nowMs)

/-- The sort key relation of `arrivals.sort((a, b) => a.arrivalTime -
b.arrivalTime)`. -/
def StopArrival.timeLE (a b : StopArrival) : Prop :=
  a.arrivalTime ≤ b.arrivalTime

instance : DecidableRel StopArrival.timeLE :=
  fun a b => inferInstanceAs (Decidable (a.arrivalTime ≤ b.arrivalTime))

instance : IsTotal StopArrival StopArrival.timeLE :=
  ⟨fun a b => Int.le_total a.arrivalTime b.arrivalTime⟩

instance : IsTrans StopArrival StopArrival.timeLE :=
  ⟨fun _ _ _ => Int.le_trans⟩

/-- The sorted per-stop arrival list (before truncation). -/
def sortedStopArrivals (f : Feed) (stopId : String) (nowMs : Int) :
    List StopArrival :=
  (stopArrivals f stopId nowMs).insertionSort StopArrival.timeLE

/-- The success body of the per-stop endpoint: the object literal of the
handler's final `res.json` call; its arrivals field is the sorted list
truncated by `.slice(0, 10)`. -/
structure StopResponse where
  stopId : String
  stopName : String
  timestamp : Int
  arrivals : List StopArrival
  deriving DecidableEq

/-- The success body built by the GET /api/rtd/arrivals/:stopId handler.  Its
stopName is the expression of the source's object literal: the bracket lookup
on the stop directory, including the prototype chain, then the optional name
access, then the or-fallback to the raw requested id. -/
def stopResponse (f : Feed) (stopId : String) (nowMs : Int) : StopResponse :=
  { stopId := stopId
    stopName :=
      jsOrString ((N_LINE_STOPS_get (jsToLower stopId)).bind DirectoryHit.jsName)
        stopId
    timestamp := nowMs
    arrivals := (sortedStopArrivals f stopId nowMs).take 10 }

/-- The result of the GET /api/rtd/arrivals/:stopId handler. -/
inductive StopResult where
  | success (body : StopResponse)
  | failure (status : Nat) (error : String)
  deriving DecidableEq

/-- The GET /api/rtd/arrivals/:stopId handler, with the fetch-and-decode stage
passed in as an `Except`. -/
def stopEndpoint (fetched : Except String Feed) (stopId : String) (nowMs : Int) :
    StopResult :=
  match fetched with
  | Except.ok f => StopResult.success (stopResponse f stopId nowMs)
  | Except.error e => StopResult.failure 500 e

/-- The key set of the JSON document each branch of the per-stop handler
sends: the success body has keys stopId, stopName, timestamp and arrivals;
the catch block sends the object literal with the single key error. -/
def StopResult.jsonKeys : StopResult → List String
  | StopResult.success _ => ["stopId", "stopName", "timestamp", "arrivals"]
  | StopResult.failure _ _ => ["error"]

/-- Example stop-time-update whose arrival message is present with time value
zero and whose departure time is 300 epoch seconds. -/
def exUpdate : StopTimeUpdate :=
  { stopId := "ustn", arrival := some 0, departure := some 300 }

/-- Example trip-update on route N containing `exUpdate`. -/
def exTrip : TripUpdate :=
  { trip := { tripId := "t1", routeId := "N", directionId := 1 }
    stopTimeUpdate := [exUpdate]
    vehicle := none }

/-- Example feed with the single entity holding `exTrip`. -/
def exFeed : Feed := { entity := [{ tripUpdate := some exTrip }] }

/-- The per-stop arrival record the code builds from `exFeed` at stop ustn
with the clock at epoch zero. -/
def exArrival : StopArrival :=
  { tripId := "t1", directionId := 1, direction := "Northbound"
    arrivalTime := 300, minutesUntil := 5, status := "Due"
    vehicleId := "Unknown" }

/-- Example stop-time-update carrying neither an arrival nor a departure
time. -/
def exUpdateNoTime : StopTimeUpdate :=
  { stopId := "ustn", arrival := none, departure := none }

/-- Example trip-update on route N whose only stop-time-update carries no
usable time. -/
def exTripNoTime : TripUpdate :=
  { trip := { tripId := "t2", routeId := "N", directionId := 0 }
    stopTimeUpdate := [exUpdateNoTime]
    vehicle := none }

/-- Example feed whose only stop-time-update carries no usable time. -/
def exFeedNoTime : Feed := { entity := [{ tripUpdate := some exTripNoTime }] }

/-- Example trip-update on route N whose only arrival lies far outside the
per-stop visibility window: one million epoch seconds is 16667 minutes after
epoch zero. -/
def exTripFar : TripUpdate :=
  { trip := { tripId := "t3", routeId := "N", directionId := 0 }
    stopTimeUpdate := [{ stopId := "ustn", arrival := some 1000000,
                         departure := none }]
    vehicle := none }

/-- Example feed holding only `exTripFar`. -/
def exFeedFar : Feed := { entity := [{ tripUpdate := some exTripFar }] }

/-- The all-stops arrival record the code builds from `exFeedFar` with the
clock at epoch zero. -/
def exArrivalFar : NLineArrival :=
  { stopId := "ustn", stopName := "Union Station", tripId := "t3"
    directionId := 0, arrivalTime := 1000000, minutesUntil := 16667
    vehicleId := "Unknown" }

/-- The integer-arithmetic form of `minutesUntil` agrees with the formula the
source writes: `Math.round((arrivalTime - Date.now() / 1000) / 60)` with
`Math.round` as round half up. -/
theorem minutesUntil_eq_jsRound (t nowMs : Int) :
    minutesUntil t nowMs = jsRound (minutesUntilQ t nowMs) := by
  unfold minutesUntil minutesUntilQ jsRound
  have h : ((t : ℚ) - (nowMs : ℚ) / 1000) / 60 + 1 / 2
      = ((1000 * t - nowMs + 30000 : ℤ) : ℚ) / ((60000 : ℕ) : ℚ) := by
    push_cast
    ring
  rw [h, Rat.floor_intCast_div_natCast]
  norm_num

/-- Membership in the unsorted all-stops list, characterised by a source
entity: it must hold a trip-update on route N one of whose stop-time-updates
projects to the record. -/
theorem mem_nLineArrivals {f : Feed} {nowMs : Int} {a : NLineArrival} :
    a ∈ nLineArrivals f nowMs ↔
      ∃ e ∈ f.entity, ∃ tu, e.tripUpdate = some tu ∧ tu.trip.routeId = "N" ∧
        ∃ u ∈ tu.stopTimeUpdate, projectAllStop tu nowMs u = some a := by
  unfold nLineArrivals
  rw [List.mem_flatMap]
  constructor
  · rintro ⟨e, he, ha⟩
    cases htu : e.tripUpdate with
    | none => simp [entityNLineArrivals, htu] at ha
    | some tu =>
      simp only [entityNLineArrivals, htu] at ha
      by_cases hr : tu.trip.routeId = "N"
      · rw [if_pos hr] at ha
        obtain ⟨u, hu, hp⟩ := List.mem_filterMap.mp ha
        exact ⟨e, he, tu, htu, hr, u, hu, hp⟩
      · rw [if_neg hr] at ha
        simp at ha
  · rintro ⟨e, he, tu, htu, hr, u, hu, hp⟩
    refine ⟨e, he, ?_⟩
    simp only [entityNLineArrivals, htu]
    rw [if_pos hr]
    exact List.mem_filterMap.mpr ⟨u, hu, hp⟩

/-- Membership in the unsorted per-stop list, characterised by a source
entity. -/
theorem mem_stopArrivals {f : Feed} {sid : String} {nowMs : Int}
    {a : StopArrival} :
    a ∈ stopArrivals f sid nowMs ↔
      ∃ e ∈ f.entity, ∃ tu, e.tripUpdate = some tu ∧ tu.trip.routeId = "N" ∧
        ∃ u ∈ tu.stopTimeUpdate, projectStop tu sid nowMs u = some a := by
  unfold stopArrivals
  rw [List.mem_flatMap]
  constructor
  · rintro ⟨e, he, ha⟩
    cases htu : e.tripUpdate with
    | none => simp [entityStopArrivals, htu] at ha
    | some tu =>
      simp only [entityStopArrivals, htu] at ha
      by_cases hr : tu.trip.routeId = "N"
      · rw [if_pos hr] at ha
        obtain ⟨u, hu, hp⟩ := List.mem_filterMap.mp ha
        exact ⟨e, he, tu, htu, hr, u, hu, hp⟩
      · rw [if_neg hr] at ha
        simp at ha
  · rintro ⟨e, he, tu, htu, hr, u, hu, hp⟩
    refine ⟨e, he, ?_⟩
    simp only [entityStopArrivals, htu]
    rw [if_pos hr]
    exact List.mem_filterMap.mpr ⟨u, hu, hp⟩

/-- Inversion of the per-stop projection: everything the shape of a produced
record guarantees. -/
theorem projectStop_eq_some {trip : TripUpdate} {sid : String} {nowMs : Int}
    {u : StopTimeUpdate} {a : StopArrival}
    (h : projectStop trip sid nowMs u = some a) :
    jsToLower u.stopId = jsToLower sid ∧
      effectiveTime u = some a.arrivalTime ∧
      a.minutesUntil = minutesUntil a.arrivalTime nowMs ∧
      (-2 ≤ a.minutesUntil ∧ a.minutesUntil ≤ 120) ∧
      a.status = (if a.minutesUntil ≤ 1 then "Arriving"
        else if a.minutesUntil ≤ 5 then "Due" else "On Time") ∧
      a.tripId = trip.trip.tripId ∧
      a.directionId = trip.trip.directionId := by
  unfold projectStop at h
  split at h
  case isTrue hs =>
    rw [Option.bind_eq_some] at h
    obtain ⟨t, ht, h⟩ := h
    split at h
    case isTrue hw =>
      injection h with h
      subst h
      exact ⟨hs, ht, rfl, hw, rfl, rfl, rfl⟩
    case isFalse => exact Option.noConfusion h
  case isFalse => exact Option.noConfusion h

/-- Inversion of the all-stops projection. -/
theorem projectAllStop_eq_some {trip : TripUpdate} {nowMs : Int}
    {u : StopTimeUpdate} {a : NLineArrival}
    (h : projectAllStop trip nowMs u = some a) :
    N_LINE_STOPS (jsToLower u.stopId) = some a.stopName ∧
      a.stopId = jsToLower u.stopId ∧
      effectiveTime u = some a.arrivalTime ∧
      a.minutesUntil = minutesUntil a.arrivalTime nowMs ∧
      a.tripId = trip.trip.tripId ∧
      a.directionId = trip.trip.directionId := by
  unfold projectAllStop at h
  rw [Option.bind_eq_some] at h
  obtain ⟨name, hn, h⟩ := h
  rw [Option.bind_eq_some] at h
  obtain ⟨t, ht, h⟩ := h
  injection h with h
  subst h
  exact ⟨hn, rfl, ht, rfl, rfl, rfl⟩

/-- Stability of insertion sort in filter form: when the comparator cannot
distinguish any two elements a predicate keeps, filtering them out of the
sorted list returns exactly the input's subsequence. -/
theorem filter_insertionSort_eq {α : Type} (r : α → α → Prop) [DecidableRel r]
    (p : α → Bool) (hp : ∀ x y, p x = true → p y = true → r x y)
    (l : List α) :
    (l.insertionSort r).filter p = l.filter p := by
  have hpw : (l.filter p).Pairwise r :=
    List.pairwise_of_forall_mem_list fun x hx y hy =>
      hp x y (List.of_mem_filter hx) (List.of_mem_filter hy)
  have hsub : (l.filter p).Sublist (l.insertionSort r) :=
    List.sublist_insertionSort hpw (List.filter_sublist l)
  have hsub2 : (l.filter p).Sublist ((l.insertionSort r).filter p) := by
    have h2 := List.Sublist.filter p hsub
    rwa [List.filter_eq_self.mpr fun a ha => List.of_mem_filter ha] at h2
  have hlen : ((l.insertionSort r).filter p).length = (l.filter p).length :=
    ((List.perm_insertionSort r l).filter p).length_eq
  exact (hsub2.eq_of_length hlen.symm).symm

/-- A record of the per-stop response body came from the unsorted matched
list: truncation and sorting only discard or permute. -/
theorem mem_stopArrivals_of_mem_response {f : Feed} {sid : String}
    {nowMs : Int} {a : StopArrival}
    (h : a ∈ (stopResponse f sid nowMs).arrivals) :
    a ∈ stopArrivals f sid nowMs := by
  have h1 : a ∈ sortedStopArrivals f sid nowMs := List.mem_of_mem_take h
  exact (List.perm_insertionSort StopArrival.timeLE _).mem_iff.mp h1

/-- C1: every arrival record either arrivals endpoint produces comes from a
trip-update entity whose routeId is a case-sensitive member of the accepted
route set (in this deployment the singleton list holding N); an entity without
a trip-update, or whose trip-update has any other routeId, contributes
nothing to either output. -/
theorem claim_C1 (f : Feed) (sid : String) (nowMs : Int) :
    (∀ a ∈ (stopResponse f sid nowMs).arrivals,
      ∃ e ∈ f.entity, ∃ tu, e.tripUpdate = some tu ∧
        tu.trip.routeId ∈ acceptedRouteIds ∧
        ∃ u ∈ tu.stopTimeUpdate, projectStop tu sid nowMs u = some a) ∧
    (∀ a ∈ sortedNLineArrivals f nowMs,
      ∃ e ∈ f.entity, ∃ tu, e.tripUpdate = some tu ∧
        tu.trip.routeId ∈ acceptedRouteIds ∧
        ∃ u ∈ tu.stopTimeUpdate, projectAllStop tu nowMs u = some a) ∧
    (∀ e : Entity, e.tripUpdate = none →
      entityStopArrivals sid nowMs e = [] ∧ entityNLineArrivals nowMs e = []) ∧
    (∀ e : Entity, ∀ tu, e.tripUpdate = some tu →
      tu.trip.routeId ∉ acceptedRouteIds →
      entityStopArrivals sid nowMs e = [] ∧ entityNLineArrivals nowMs e = []) := by
  refine ⟨?_, ?_, ?_, ?_⟩
  · intro a ha
    obtain ⟨e, he, tu, htu, hr, u, hu, hp⟩ :=
      mem_stopArrivals.mp (mem_stopArrivals_of_mem_response ha)
    exact ⟨e, he, tu, htu, by simp [acceptedRouteIds, hr], u, hu, hp⟩
  · intro a ha
    have ha2 : a ∈ nLineArrivals f nowMs :=
      (List.perm_insertionSort NLineArrival.timeLE _).mem_iff.mp ha
    obtain ⟨e, he, tu, htu, hr, u, hu, hp⟩ := mem_nLineArrivals.mp ha2
    exact ⟨e, he, tu, htu, by simp [acceptedRouteIds, hr], u, hu, hp⟩
  · intro e he
    exact ⟨by simp [entityStopArrivals, he], by simp [entityNLineArrivals, he]⟩
  · intro e tu htu hr
    have hr2 : ¬tu.trip.routeId = "N" := by simpa [acceptedRouteIds] using hr
    constructor
    · simp only [entityStopArrivals, htu]
      rw [if_neg hr2]
    · simp only [entityNLineArrivals, htu]
      rw [if_neg hr2]

/-- C1 witness: the theorem applied to the concrete feed `exFeed` and its
output record `exArrival`. -/
theorem claim_C1_witness :
    ∃ e ∈ exFeed.entity, ∃ tu, e.tripUpdate = some tu ∧
      tu.trip.routeId ∈ acceptedRouteIds ∧
      ∃ u ∈ tu.stopTimeUpdate, projectStop tu "ustn" 0 u = some exArrival :=
  (claim_C1 exFeed "ustn" 0).1 exArrival (by decide)

/-- C2: for every arrival in the per-stop response, the status field is the
total three-way partition of minutesUntil: Arriving iff at most 1, Due iff
more than 1 and at most 5, On Time iff more than 5. -/
theorem claim_C2 {f : Feed} {sid : String} {nowMs : Int} {a : StopArrival}
    (h : a ∈ (stopResponse f sid nowMs).arrivals) :
    (a.status = "Arriving" ↔ a.minutesUntil ≤ 1) ∧
    (a.status = "Due" ↔ 1 < a.minutesUntil ∧ a.minutesUntil ≤ 5) ∧
    (a.status = "On Time" ↔ 5 < a.minutesUntil) := by
  obtain ⟨e, he, tu, htu, hr, u, hu, hp⟩ :=
    mem_stopArrivals.mp (mem_stopArrivals_of_mem_response h)
  obtain ⟨-, -, -, -, hst, -, -⟩ := projectStop_eq_some hp
  by_cases h1 : a.minutesUntil ≤ 1
  · rw [if_pos h1] at hst
    rw [hst]
    exact ⟨⟨fun _ => h1, fun _ => rfl⟩,
           ⟨fun hc => absurd hc (by decide), fun hc => absurd h1 (by omega)⟩,
           ⟨fun hc => absurd hc (by decide), fun hc => absurd h1 (by omega)⟩⟩
  · by_cases h5 : a.minutesUntil ≤ 5
    · rw [if_neg h1, if_pos h5] at hst
      rw [hst]
      exact ⟨⟨fun hc => absurd hc (by decide), fun hc => absurd hc h1⟩,
             ⟨fun _ => ⟨by omega, h5⟩, fun _ => rfl⟩,
             ⟨fun hc => absurd hc (by decide), fun hc => absurd h5 (by omega)⟩⟩
    · rw [if_neg h1, if_neg h5] at hst
      rw [hst]
      exact ⟨⟨fun hc => absurd hc (by decide), fun hc => absurd hc h1⟩,
             ⟨fun hc => absurd hc (by decide), fun hc => absurd hc.2 h5⟩,
             ⟨fun _ => by omega, fun _ => rfl⟩⟩

/-- C2 witness: the partition at the concrete record `exArrival` of
`exFeed`. -/
theorem claim_C2_witness :
    (exArrival.status = "Arriving" ↔ exArrival.minutesUntil ≤ 1) ∧
    (exArrival.status = "Due" ↔
      1 < exArrival.minutesUntil ∧ exArrival.minutesUntil ≤ 5) ∧
    (exArrival.status = "On Time" ↔ 5 < exArrival.minutesUntil) :=
  @claim_C2 exFeed "ustn" 0 exArrival (by decide)

/-- C3 counterexample: in `exFeed` the matching stop-time-update carries an
arrival time that is present (with value zero) and a departure time of 300,
so the claim's rule (arrival epoch time if present, else departure) yields 0;
the code instead tests JavaScript truthiness, falls through to the departure
time, and the response record carries 300 as its effective time. -/
theorem claim_C3_counterexample :
    exUpdate.arrival = some 0 ∧
    specEffectiveTime exUpdate = some 0 ∧
    effectiveTime exUpdate = some 300 ∧
    (stopResponse exFeed "ustn" 0).arrivals.map StopArrival.arrivalTime
      = [300] := by
  decide

/-- C3 (amended): the effective time is the arrival epoch time when present
and nonzero, else the departure epoch time when present and nonzero (the
JavaScript truthiness of the code's or-chain, as `effectiveTime` defines);
every record of either endpoint carries the truthy-effective time of a source
stop-time-update as its effective epoch time, and its minutesUntil equals
round((effectiveEpochSeconds - nowEpochSeconds) / 60) with
nowEpochSeconds = nowMs / 1000, the clock at which the request is
processed. -/
theorem claim_C3 {f : Feed} {sid : String} {nowMs : Int} :
    (∀ a ∈ (stopResponse f sid nowMs).arrivals,
      a.minutesUntil = jsRound (minutesUntilQ a.arrivalTime nowMs) ∧
      ∃ e ∈ f.entity, ∃ tu, e.tripUpdate = some tu ∧
        ∃ u ∈ tu.stopTimeUpdate, effectiveTime u = some a.arrivalTime) ∧
    (∀ a ∈ sortedNLineArrivals f nowMs,
      a.minutesUntil = jsRound (minutesUntilQ a.arrivalTime nowMs) ∧
      ∃ e ∈ f.entity, ∃ tu, e.tripUpdate = some tu ∧
        ∃ u ∈ tu.stopTimeUpdate, effectiveTime u = some a.arrivalTime) := by
  constructor
  · intro a ha
    obtain ⟨e, he, tu, htu, hr, u, hu, hp⟩ :=
      mem_stopArrivals.mp (mem_stopArrivals_of_mem_response ha)
    obtain ⟨-, heff, hmin, -, -, -, -⟩ := projectStop_eq_some hp
    exact ⟨by rw [hmin, minutesUntil_eq_jsRound],
           e, he, tu, htu, u, hu, heff⟩
  · intro a ha
    have ha2 : a ∈ nLineArrivals f nowMs :=
      (List.perm_insertionSort NLineArrival.timeLE _).mem_iff.mp ha
    obtain ⟨e, he, tu, htu, hr, u, hu, hp⟩ := mem_nLineArrivals.mp ha2
    obtain ⟨-, -, heff, hmin, -, -⟩ := projectAllStop_eq_some hp
    exact ⟨by rw [hmin, minutesUntil_eq_jsRound],
           e, he, tu, htu, u, hu, heff⟩

/-- C3 witness: the amended statement at the concrete record `exArrival` of
`exFeed`. -/
theorem claim_C3_witness :
    exArrival.minutesUntil = jsRound (minutesUntilQ exArrival.arrivalTime 0) ∧
    ∃ e ∈ exFeed.entity, ∃ tu, e.tripUpdate = some tu ∧
      ∃ u ∈ tu.stopTimeUpdate, effectiveTime u = some exArrival.arrivalTime :=
  (@claim_C3 exFeed "ustn" 0).1 exArrival (by decide)

/-- C4: a stop-time-update carrying neither an arrival nor a departure time
projects to nothing in both pipelines, and a feed all of whose
stop-time-updates lack both times yields a success response with an empty
arrivals array from both endpoints. -/
theorem claim_C4 (f : Feed) (sid : String) (nowMs : Int)
    (hall : ∀ e ∈ f.entity, ∀ tu ∈ e.tripUpdate.toList,
      ∀ u ∈ tu.stopTimeUpdate, u.arrival = none ∧ u.departure = none) :
    (∀ trip u, u.arrival = none → u.departure = none →
      projectStop trip sid nowMs u = none ∧
      projectAllStop trip nowMs u = none) ∧
    stopEndpoint (Except.ok f) sid nowMs =
      StopResult.success
        { stopId := sid
          stopName :=
            jsOrString ((N_LINE_STOPS_get (jsToLower sid)).bind
              DirectoryHit.jsName) sid
          timestamp := nowMs
          arrivals := [] } ∧
    allEndpoint (Except.ok f) nowMs = AllResult.success nowMs [] := by
  have hdrop : ∀ trip u, u.arrival = none → u.departure = none →
      projectStop trip sid nowMs u = none ∧
      projectAllStop trip nowMs u = none := by
    intro trip u ha hd
    have heff : effectiveTime u = none := by
      simp [effectiveTime, jsTruthy, ha, hd]
    constructor
    · simp [projectStop, heff]
    · simp [projectAllStop, heff]
  have hstop : stopArrivals f sid nowMs = [] := by
    unfold stopArrivals
    rw [List.flatMap_eq_nil_iff]
    intro e he
    cases htu : e.tripUpdate with
    | none => simp [entityStopArrivals, htu]
    | some tu =>
      simp only [entityStopArrivals, htu]
      by_cases hr : tu.trip.routeId = "N"
      · rw [if_pos hr, List.filterMap_eq_nil_iff]
        intro u hu
        have htl : tu ∈ e.tripUpdate.toList := by simp [htu]
        obtain ⟨ha, hd⟩ := hall e he tu htl u hu
        exact (hdrop tu u ha hd).1
      · rw [if_neg hr]
  have hnl : nLineArrivals f nowMs = [] := by
    unfold nLineArrivals
    rw [List.flatMap_eq_nil_iff]
    intro e he
    cases htu : e.tripUpdate with
    | none => simp [entityNLineArrivals, htu]
    | some tu =>
      simp only [entityNLineArrivals, htu]
      by_cases hr : tu.trip.routeId = "N"
      · rw [if_pos hr, List.filterMap_eq_nil_iff]
        intro u hu
        have htl : tu ∈ e.tripUpdate.toList := by simp [htu]
        obtain ⟨ha, hd⟩ := hall e he tu htl u hu
        exact (hdrop tu u ha hd).2
      · rw [if_neg hr]
  refine ⟨hdrop, ?_, ?_⟩
  · have h1 : stopEndpoint (Except.ok f) sid nowMs =
        StopResult.success (stopResponse f sid nowMs) := rfl
    rw [h1]
    unfold stopResponse sortedStopArrivals
    rw [hstop]
    rfl
  · have h1 : allEndpoint (Except.ok f) nowMs =
        AllResult.success nowMs (sortedNLineArrivals f nowMs) := rfl
    rw [h1]
    unfold sortedNLineArrivals
    rw [hnl]
    rfl

/-- C4 witness: the theorem applied to the concrete feed `exFeedNoTime`,
whose only stop-time-update carries neither time. -/
theorem claim_C4_witness :
    (∀ trip u, u.arrival = none → u.departure = none →
      projectStop trip "ustn" 0 u = none ∧
      projectAllStop trip 0 u = none) ∧
    stopEndpoint (Except.ok exFeedNoTime) "ustn" 0 =
      StopResult.success
        { stopId := "ustn"
          stopName :=
            jsOrString ((N_LINE_STOPS_get (jsToLower "ustn")).bind
              DirectoryHit.jsName) "ustn"
          timestamp := 0
          arrivals := [] } ∧
    allEndpoint (Except.ok exFeedNoTime) 0 = AllResult.success 0 [] :=
  claim_C4 exFeedNoTime "ustn" 0 (by decide)

/-- C5: both endpoints' assembled arrays are sorted ascending by effective
time (pairwise, hence for all adjacent pairs), and the sort is stable: for
every effective-time value, the sorted list restricted to that value is
exactly the matched list restricted to it, in original feed order. -/
theorem claim_C5 (f : Feed) (sid : String) (nowMs : Int) :
    (stopResponse f sid nowMs).arrivals.Pairwise StopArrival.timeLE ∧
    (sortedNLineArrivals f nowMs).Pairwise NLineArrival.timeLE ∧
    (∀ k : Int,
      (sortedStopArrivals f sid nowMs).filter (fun a => a.arrivalTime == k) =
        (stopArrivals f sid nowMs).filter (fun a => a.arrivalTime == k)) ∧
    (∀ k : Int,
      (sortedNLineArrivals f nowMs).filter (fun a => a.arrivalTime == k) =
        (nLineArrivals f nowMs).filter (fun a => a.arrivalTime == k)) := by
  refine ⟨?_, ?_, ?_, ?_⟩
  · have hs : (sortedStopArrivals f sid nowMs).Pairwise StopArrival.timeLE :=
      List.sorted_insertionSort StopArrival.timeLE _
    exact List.Pairwise.sublist (List.take_sublist 10 _) hs
  · exact List.sorted_insertionSort NLineArrival.timeLE _
  · intro k
    refine filter_insertionSort_eq StopArrival.timeLE _ ?_ _
    intro x y hx hy
    have hx2 : x.arrivalTime = k := by simpa using hx
    have hy2 : y.arrivalTime = k := by simpa using hy
    unfold StopArrival.timeLE
    omega
  · intro k
    refine filter_insertionSort_eq NLineArrival.timeLE _ ?_ _
    intro x y hx hy
    have hx2 : x.arrivalTime = k := by simpa using hx
    have hy2 : y.arrivalTime = k := by simpa using hy
    unfold NLineArrival.timeLE
    omega

/-- C6: every arrival in the per-stop response has minutesUntil inside the
visibility window from -2 to 120. -/
theorem claim_C6 {f : Feed} {sid : String} {nowMs : Int} {a : StopArrival}
    (h : a ∈ (stopResponse f sid nowMs).arrivals) :
    -2 ≤ a.minutesUntil ∧ a.minutesUntil ≤ 120 := by
  obtain ⟨e, he, tu, htu, hr, u, hu, hp⟩ :=
    mem_stopArrivals.mp (mem_stopArrivals_of_mem_response h)
  exact (projectStop_eq_some hp).2.2.2.1

/-- C6 witness: the window bounds at the concrete record `exArrival` of
`exFeed`. -/
theorem claim_C6_witness :
    -2 ≤ exArrival.minutesUntil ∧ exArrival.minutesUntil ≤ 120 :=
  @claim_C6 exFeed "ustn" 0 exArrival (by decide)

/-- C7 counterexample: the successful per-stop response body has exactly the
keys stopId, stopName, timestamp and arrivals; it carries no feedTimestamp
and no feedAgeMinutes field, contrary to the claim. -/
theorem claim_C7_counterexample :
    (stopEndpoint (Except.ok exFeed) "ustn" 0).jsonKeys =
      ["stopId", "stopName", "timestamp", "arrivals"] ∧
    (stopEndpoint (Except.ok exFeed) "ustn" 0).jsonKeys.contains
      "feedTimestamp" = false ∧
    (stopEndpoint (Except.ok exFeed) "ustn" 0).jsonKeys.contains
      "feedAgeMinutes" = false := by
  decide

/-- C7 (amended): every successful per-stop response body has exactly the
keys stopId, stopName, timestamp and arrivals (no feedTimestamp and no
feedAgeMinutes field), its arrivals array holds at most 10 entries however
many records matched, and its stopId and timestamp echo the request. -/
theorem claim_C7 (f : Feed) (sid : String) (nowMs : Int) :
    stopEndpoint (Except.ok f) sid nowMs =
      StopResult.success (stopResponse f sid nowMs) ∧
    (stopEndpoint (Except.ok f) sid nowMs).jsonKeys =
      ["stopId", "stopName", "timestamp", "arrivals"] ∧
    (stopEndpoint (Except.ok f) sid nowMs).jsonKeys.contains
      "feedTimestamp" = false ∧
    (stopResponse f sid nowMs).arrivals.length ≤ 10 ∧
    (stopResponse f sid nowMs).stopId = sid ∧
    (stopResponse f sid nowMs).timestamp = nowMs := by
  refine ⟨rfl, rfl, rfl, ?_, rfl, rfl⟩
  exact List.length_take_le 10 (sortedStopArrivals f sid nowMs)

/-- C8 counterexample: when the fetch or decode stage fails, the all-stops
endpoint's 500 body is the object with keys error and stack, not exactly the
shape with the single key error that the claim states for both endpoints. -/
theorem claim_C8_counterexample :
    allEndpoint (Except.error "boom") 0 = AllResult.failure 500 "boom" ∧
    (allEndpoint (Except.error "boom") 0).jsonKeys = ["error", "stack"] ∧
    (allEndpoint (Except.error "boom") 0).jsonKeys.contains "stack" = true := by
  decide

/-- C8 (amended): on a fetch or decode failure both endpoints respond with
HTTP status 500 and a failure body carrying the underlying message and no
arrivals array; the per-stop error body has exactly the single key error,
while the all-stops error body has the keys error and stack. -/
theorem claim_C8 (msg sid : String) (nowMs : Int) :
    stopEndpoint (Except.error msg) sid nowMs = StopResult.failure 500 msg ∧
    (stopEndpoint (Except.error msg) sid nowMs).jsonKeys = ["error"] ∧
    allEndpoint (Except.error msg) nowMs = AllResult.failure 500 msg ∧
    (allEndpoint (Except.error msg) nowMs).jsonKeys = ["error", "stack"] :=
  ⟨rfl, rfl, rfl, rfl⟩

/-- C9 counterexample: the reachable request stop id constructor has no entry
in the stop directory, yet the response's stopName is Object, not the raw id:
the JavaScript bracket lookup finds the inherited
Object.prototype.constructor property, the Object constructor function, a
truthy value whose name property is Object. -/
theorem claim_C9_counterexample :
    N_LINE_STOPS (jsToLower "constructor") = none ∧
    N_LINE_STOPS_get (jsToLower "constructor") =
      some (DirectoryHit.builtinFn "Object") ∧
    (stopResponse exFeed "constructor" 0).stopName = "Object" := by
  decide

/-- C9 (amended): a request for a stop id whose lowercasing misses the whole
lookup chain (no directory entry and no inherited Object.prototype property)
does not fail; the response's stopName is the raw requested stop id itself.
The same holds when the lookup hits the inherited proto accessor, since
Object.prototype has no name property and the or-fallback fires.  The one
deviation - an id naming an inherited function property, reachable after
lowercasing only as constructor - makes stopName the function's name
instead. -/
theorem claim_C9 (f : Feed) (sid : String) (nowMs : Int)
    (h : N_LINE_STOPS_get (jsToLower sid) = none ∨
      N_LINE_STOPS_get (jsToLower sid) = some DirectoryHit.objectProto) :
    (stopResponse f sid nowMs).stopName = sid := by
  unfold stopResponse
  rcases h with h | h <;> simp [jsOrString, h, DirectoryHit.jsName]

/-- C9 witness: the unknown stop id 99999 misses the whole lookup chain and
is echoed as its own display name. -/
theorem claim_C9_witness : (stopResponse exFeed "99999" 0).stopName = "99999" :=
  claim_C9 exFeed "99999" 0 (Or.inl (by decide))

/-- C10: the all-stops endpoint applies no visibility window and no result
limit: its successful response carries the sorted list itself, which is a
permutation of the full matched list (so every matching record appears and
nothing is truncated), and on the concrete feed `exFeedFar` it returns a
record 16667 minutes in the future, far beyond the per-stop window bound of
120. -/
theorem claim_C10 (f : Feed) (nowMs : Int) :
    allEndpoint (Except.ok f) nowMs =
      AllResult.success nowMs (sortedNLineArrivals f nowMs) ∧
    (sortedNLineArrivals f nowMs).Perm (nLineArrivals f nowMs) ∧
    (sortedNLineArrivals f nowMs).length = (nLineArrivals f nowMs).length ∧
    allEndpoint (Except.ok exFeedFar) 0 = AllResult.success 0 [exArrivalFar] ∧
    exArrivalFar.minutesUntil = 16667 ∧
    120 < exArrivalFar.minutesUntil := by
  refine ⟨rfl, List.perm_insertionSort NLineArrival.timeLE _,
    (List.perm_insertionSort NLineArrival.timeLE _).length_eq, ?_, ?_, ?_⟩
  · decide
  · decide
  · decide

end RtdNLine
